import Mathlib

/-!
Verification of `youtube_channel_stats.py` against its specification.

The development shallow-embeds the retry / credential-rotation loop of
`YoutubeChannelStats.collect_channel_stats`, the candidate-id queries, the
upload-key construction and the final table recreation, and proves the
specified properties about them.
-/

/-- The value of `errno.ECONNRESET` on Linux. -/
def ECONNRESET : Nat := 104

/-- The constant `YoutubeChannelStats.WAIT_WHEN_SERVICE_UNAVAILABLE` (seconds). -/
def WAIT_WHEN_SERVICE_UNAVAILABLE : Nat := 30

/-- The constant `YoutubeChannelStats.WAIT_WHEN_CONNECTION_RESET_BY_PEER` (seconds). -/
def WAIT_WHEN_CONNECTION_RESET_BY_PEER : Nat := 60

/-- The constant `LOGGING_INTERVAL` (not needed by any claim, kept for completeness). -/
def LOGGING_INTERVAL : Nat := 100

/-- Does `pat` occur as a contiguous run inside the character list? -/
def hasSubChars (pat : List Char) : List Char → Bool
  | [] => pat.isEmpty
  | c :: rest => pat.isPrefixOf (c :: rest) || hasSubChars pat rest

/-- Substring containment test, modelling Python's `"sub" in s`. -/
def containsSub (s sub : String) : Bool := hasSubChars sub.data s.data

/-- Failure classes of one API call attempt (the `except` dispatch of the
retry loop, lines 142-168 of the source). -/
inductive FailureClass where
  | authorizationInvalid
  | serviceUnavailable
  | unclassified
deriving DecidableEq, Repr

/-- Classification of an `HttpError` by the string tests of the source:
`"403" in str(e)` first, then `("503" in str(e)) or ("500" in str(e))`,
otherwise unhandled. -/
def classifyHttp (msg : String) : FailureClass :=
  if containsSub msg "403" then FailureClass.authorizationInvalid
  else if containsSub msg "503" || containsSub msg "500" then FailureClass.serviceUnavailable
  else FailureClass.unclassified

/-- Outcome of one `youtube.channels().list(...).execute()` attempt, as seen
by the `try`/`except` of the retry loop. -/
inductive ApiOutcome where
  | success (items : List String)
  | socketError (e : Nat)
  | httpError (msg : String)
deriving DecidableEq, Repr

/-- How one channel's retry loop terminates: a response, or a re-raised
exception. -/
inductive CallEnd where
  | succeeded (items : List String)
  | raisedSocket (e : Nat)
  | raisedHttp (msg : String)
deriving DecidableEq, Repr

/-- Observable events of the run, in program order. -/
inductive Event where
  | apiAttempt
  | slept (d : Nat)
  | rebuilt (key : Nat)
  | wrote (item : String)
  | uploaded (key : String)
  | droppedTable
  | createdTable
  | repairedTable
deriving DecidableEq, Repr

/-- Result of one channel's `while no_response` retry loop. -/
structure CallResult where
  outcome : CallEnd
  events : List Event
  finalKey : Nat
deriving DecidableEq, Repr

/-- Prepend events produced before a recursive continuation of the loop. -/
def consEvs (es : List Event) (r : CallResult) : CallResult :=
  ⟨r.outcome, es ++ r.events, r.finalKey⟩

/-- The `while no_response` retry loop of `collect_channel_stats`
(lines 117-168), driven by a script of outcomes for successive attempts.
State: `key` = `current_key`, `su` = `service_unavailable`,
`cr` = `connection_reset_by_peer`.  Returns `none` when the script is too
short to decide the loop. -/
def runCall (nCreds : Nat) : Nat → Nat → Nat → List ApiOutcome → Option CallResult
  | _, _, _, [] => none
  | key, su, cr, o :: rest =>
    match o with
    | ApiOutcome.success items => some ⟨CallEnd.succeeded items, [Event.apiAttempt], key⟩
    | ApiOutcome.socketError e =>
      if e ≠ ECONNRESET then
        some ⟨CallEnd.raisedSocket e, [Event.apiAttempt], key⟩
      else
        if cr + 1 ≤ 10 then
          (runCall nCreds key su (cr + 1) rest).map
            (consEvs [Event.apiAttempt,
                      Event.slept WAIT_WHEN_CONNECTION_RESET_BY_PEER,
                      Event.rebuilt key])
        else
          some ⟨CallEnd.raisedSocket e, [Event.apiAttempt], key⟩
    | ApiOutcome.httpError msg =>
      match classifyHttp msg with
      | FailureClass.authorizationInvalid =>
        if nCreds ≤ key + 1 then
          some ⟨CallEnd.raisedHttp msg, [Event.apiAttempt], key + 1⟩
        else
          (runCall nCreds (key + 1) su cr rest).map
            (consEvs [Event.apiAttempt, Event.rebuilt (key + 1)])
      | FailureClass.serviceUnavailable =>
        if su + 1 ≤ 10 then
          (runCall nCreds key (su + 1) cr rest).map
            (consEvs [Event.apiAttempt,
                      Event.slept WAIT_WHEN_SERVICE_UNAVAILABLE])
        else
          some ⟨CallEnd.raisedHttp msg, [Event.apiAttempt], key⟩
      | FailureClass.unclassified =>
        some ⟨CallEnd.raisedHttp msg, [Event.apiAttempt], key⟩

/-- The spec's words for the retry counters: "each class maintains its own
attempt counter, reset to zero on class change".  Identical to `runCall`
except that a failure of one retried class resets the other class's
counter. -/
def runCallSpecReset (nCreds : Nat) : Nat → Nat → Nat → List ApiOutcome → Option CallResult
  | _, _, _, [] => none
  | key, su, cr, o :: rest =>
    match o with
    | ApiOutcome.success items => some ⟨CallEnd.succeeded items, [Event.apiAttempt], key⟩
    | ApiOutcome.socketError e =>
      if e ≠ ECONNRESET then
        some ⟨CallEnd.raisedSocket e, [Event.apiAttempt], key⟩
      else
        if cr + 1 ≤ 10 then
          (runCallSpecReset nCreds key 0 (cr + 1) rest).map
            (consEvs [Event.apiAttempt,
                      Event.slept WAIT_WHEN_CONNECTION_RESET_BY_PEER,
                      Event.rebuilt key])
        else
          some ⟨CallEnd.raisedSocket e, [Event.apiAttempt], key⟩
    | ApiOutcome.httpError msg =>
      match classifyHttp msg with
      | FailureClass.authorizationInvalid =>
        if nCreds ≤ key + 1 then
          some ⟨CallEnd.raisedHttp msg, [Event.apiAttempt], key + 1⟩
        else
          (runCallSpecReset nCreds (key + 1) su cr rest).map
            (consEvs [Event.apiAttempt, Event.rebuilt (key + 1)])
      | FailureClass.serviceUnavailable =>
        if su + 1 ≤ 10 then
          (runCallSpecReset nCreds key (su + 1) 0 rest).map
            (consEvs [Event.apiAttempt,
                      Event.slept WAIT_WHEN_SERVICE_UNAVAILABLE])
        else
          some ⟨CallEnd.raisedHttp msg, [Event.apiAttempt], key⟩
      | FailureClass.unclassified =>
        some ⟨CallEnd.raisedHttp msg, [Event.apiAttempt], key⟩

/-- Result of the `for channel_id in reader` loop: events in order, the
value of `num_channels`, the final `current_key`, and the exception that
escaped the loop, if any. -/
structure LoopResult where
  events : List Event
  numChannels : Nat
  finalKey : Nat
  err : Option CallEnd
deriving DecidableEq, Repr

/-- The `for channel_id in reader` loop (lines 112-171): one outcome script
per channel row; `current_key` is threaded across channels while the two
retry counters restart at 0 for each channel.  A raise inside the retry
loop escapes the whole loop. -/
def processChannels (nCreds : Nat) : Nat → List (List ApiOutcome) → Option LoopResult
  | key, [] => some ⟨[], 0, key, none⟩
  | key, s :: ss =>
    match runCall nCreds key 0 0 s with
    | none => none
    | some r =>
      match r.outcome with
      | CallEnd.succeeded items =>
        (processChannels nCreds r.finalKey ss).map
          (fun lr => ⟨r.events ++ items.map Event.wrote ++ lr.events,
                      lr.numChannels + 1, lr.finalKey, lr.err⟩)
      | CallEnd.raisedSocket e =>
        some ⟨r.events, 1, r.finalKey, some (CallEnd.raisedSocket e)⟩
      | CallEnd.raisedHttp msg =>
        some ⟨r.events, 1, r.finalKey, some (CallEnd.raisedHttp msg)⟩

/-- The S3 object key built at lines 177-180:
`"youtube_channel_stats/creation_date={}/{}-{}.json.bz2".format(date, uuid4().hex, num_channels)`. -/
def uploadKeyFormat (date uuidHex : String) (n : Nat) : String :=
  "youtube_channel_stats/creation_date=" ++ date ++ "/" ++ uuidHex ++ "-"
    ++ toString n ++ ".json.bz2"

/-- Result of one whole `collect_channel_stats` run. -/
structure RunOutcome where
  events : List Event
  numChannels : Nat
  uploadKey : Option String
  err : Option CallEnd
deriving DecidableEq, Repr

/-- The body of `collect_channel_stats` after the candidate download (lines 101-187):
process every channel row, then upload the file and recreate the table.
An exception escaping the loop skips the upload and the recreation. -/
def collect_channel_stats (nCreds : Nat) (date uuidHex : String)
    (scripts : List (List ApiOutcome)) : Option RunOutcome :=
  (processChannels nCreds 0 scripts).map (fun lr =>
    match lr.err with
    | some e => ⟨lr.events, lr.numChannels, none, some e⟩
    | none =>
      let k := uploadKeyFormat date uuidHex lr.numChannels
      ⟨lr.events ++ [Event.uploaded k, Event.droppedTable, Event.createdTable,
                     Event.repairedTable],
       lr.numChannels, some k, none⟩)

/-- The outcome of the one-channel, one-item reference run used as a
concrete witness below. -/
def runW1 : RunOutcome :=
  ⟨[Event.apiAttempt, Event.wrote "a",
    Event.uploaded "youtube_channel_stats/creation_date=d/u-1.json.bz2",
    Event.droppedTable, Event.createdTable, Event.repairedTable],
   1, some "youtube_channel_stats/creation_date=d/u-1.json.bz2", none⟩

/-- Events that the per-channel retry loop itself can emit. -/
def isCallEvent : Event → Bool
  | Event.apiAttempt => true
  | Event.slept _ => true
  | Event.rebuilt _ => true
  | _ => false

/-- Events emitted while channels are being processed (fetching plus the
JSON lines written), as opposed to the upload and table recreation. -/
def isProcEvent : Event → Bool
  | Event.apiAttempt => true
  | Event.slept _ => true
  | Event.rebuilt _ => true
  | Event.wrote _ => true
  | _ => false

/-- Number of JSON records written to the output file. -/
def wroteCount (es : List Event) : Nat :=
  es.countP (fun e => match e with | Event.wrote _ => true | _ => false)

/-- Do all scripted successful responses carry exactly one item?  (The API
returns zero or one items per queried channel id; this is the case where
every queried channel still exists.) -/
def singleItemScripts (scripts : List (List ApiOutcome)) : Bool :=
  scripts.all (fun s => s.all (fun o =>
    match o with
    | ApiOutcome.success items => items.length == 1
    | _ => true))

/-- The candidate-id computation of lines 87-93: `SELECT_DISTINCT_CHANNEL`
selects the distinct non-null `snippet.channelId`; when the output table
already exists, `EXTRA_CHANNEL` further excludes ids present in
`youtube_channel_stats` at `creation_date = current_date`.  `upstream` is
the `snippet.channelId` column of `youtube_video_snippet`; `stored` holds
the `(id, creation_date)` rows of `youtube_channel_stats`. -/
def candidateIds (tableExists : Bool) (upstream : List (Option String))
    (stored : List (String × String)) (today : String) : List String :=
  if tableExists then
    ((upstream.filterMap (fun x => x)).filter
      (fun c => !((stored.filter (fun r => r.2 = today)).map Prod.fst).contains c)).dedup
  else
    (upstream.filterMap (fun x => x)).dedup

/-- Modelled from the spec: the TaskProducer's queue fan-out (the
distributed variant's batching code is not under `src/`).  "Partitions
`candidateIds` into WorkBatches of fixed size (1000), in arrival order."
Fuel-indexed so the recursion is structural; `makeBatches` supplies
enough fuel. -/
def makeBatchesAux (fuel : Nat) (ids : List α) : List (List α) :=
  match fuel, ids with
  | 0, _ => []
  | _, [] => []
  | f + 1, l => l.take 1000 :: makeBatchesAux f (l.drop 1000)

/-- Modelled from the spec: partition the candidate ids into batches of
at most 1000, in arrival order. -/
def makeBatches (ids : List α) : List (List α) := makeBatchesAux ids.length ids

/-- Swap the entries at positions `i` and `j` of a list (no-op when either
index is out of range). -/
def listSwap (l : List α) (i j : Nat) : List α :=
  match l.get? i, l.get? j with
  | some a, some b => (l.set i b).set j a
  | _, _ => l

/-- The Fisher-Yates loop of CPython's `random.shuffle`: for `i` from
`len-1` down to `1`, swap position `i` with position `js-entry mod (i+1)`.
`js` supplies the random draws. -/
def fyGo : List α → Nat → List Nat → List α
  | l, 0, _ => l
  | l, _ + 1, [] => l
  | l, i + 1, j :: js => fyGo (listSwap l (i + 1) (j % (i + 2))) i js

/-- Model of `random.shuffle(x)`: shuffle the whole list in place. -/
def fisherYates (l : List α) (js : List Nat) : List α := fyGo l (l.length - 1) js

/-- The observable state after `YoutubeChannelStats.__init__`: the pool's
list and the caller's list object.  `self.credentials = credentials`
aliases the caller's list, and `random.shuffle(self.credentials)` mutates
it in place, so both are the shuffled list. -/
structure PoolInit (α : Type) where
  pool : List α
  callerList : List α
deriving DecidableEq, Repr

/-- The constructor `YoutubeChannelStats.__init__` restricted to the credentials handling
(lines 72-74). -/
def ycsInit (credentials : List α) (js : List Nat) : PoolInit α :=
  let s := fisherYates credentials js
  ⟨s, s⟩

theorem consEvs_nil (r : CallResult) : consEvs [] r = r := by
  simp [consEvs]

theorem consEvs_consEvs (es es' : List Event) (r : CallResult) :
    consEvs es (consEvs es' r) = consEvs (es ++ es') r := by
  simp [consEvs]

theorem option_map_consEvs_nil (x : Option CallResult) : x.map (consEvs []) = x := by
  cases x <;> simp [consEvs]

theorem runCall_success (nCreds key su cr : Nat) (items : List String)
    (rest : List ApiOutcome) :
    runCall nCreds key su cr (ApiOutcome.success items :: rest)
      = some ⟨CallEnd.succeeded items, [Event.apiAttempt], key⟩ := by
  simp [runCall]

theorem runCall_socket_other (nCreds key su cr e : Nat) (rest : List ApiOutcome)
    (he : e ≠ ECONNRESET) :
    runCall nCreds key su cr (ApiOutcome.socketError e :: rest)
      = some ⟨CallEnd.raisedSocket e, [Event.apiAttempt], key⟩ := by
  simp [runCall, he]

theorem runCall_cr_step (nCreds key su cr : Nat) (rest : List ApiOutcome)
    (h : cr + 1 ≤ 10) :
    runCall nCreds key su cr (ApiOutcome.socketError ECONNRESET :: rest)
      = (runCall nCreds key su (cr + 1) rest).map
          (consEvs [Event.apiAttempt, Event.slept 60, Event.rebuilt key]) := by
  simp [runCall, h, WAIT_WHEN_CONNECTION_RESET_BY_PEER]

theorem runCall_cr_raise (nCreds key su cr : Nat) (rest : List ApiOutcome)
    (h : 10 < cr + 1) :
    runCall nCreds key su cr (ApiOutcome.socketError ECONNRESET :: rest)
      = some ⟨CallEnd.raisedSocket ECONNRESET, [Event.apiAttempt], key⟩ := by
  simp [runCall]
  omega

theorem runCall_su_step (nCreds key su cr : Nat) (msg : String)
    (rest : List ApiOutcome)
    (hmsg : classifyHttp msg = FailureClass.serviceUnavailable) (h : su + 1 ≤ 10) :
    runCall nCreds key su cr (ApiOutcome.httpError msg :: rest)
      = (runCall nCreds key (su + 1) cr rest).map
          (consEvs [Event.apiAttempt, Event.slept 30]) := by
  simp [runCall, hmsg, h, WAIT_WHEN_SERVICE_UNAVAILABLE]

theorem runCall_su_raise (nCreds key su cr : Nat) (msg : String)
    (rest : List ApiOutcome)
    (hmsg : classifyHttp msg = FailureClass.serviceUnavailable) (h : 10 < su + 1) :
    runCall nCreds key su cr (ApiOutcome.httpError msg :: rest)
      = some ⟨CallEnd.raisedHttp msg, [Event.apiAttempt], key⟩ := by
  simp [runCall, hmsg]
  omega

theorem runCall_auth_step (nCreds key su cr : Nat) (msg : String)
    (rest : List ApiOutcome)
    (hmsg : classifyHttp msg = FailureClass.authorizationInvalid)
    (hk : key + 1 < nCreds) :
    runCall nCreds key su cr (ApiOutcome.httpError msg :: rest)
      = (runCall nCreds (key + 1) su cr rest).map
          (consEvs [Event.apiAttempt, Event.rebuilt (key + 1)]) := by
  have hk' : ¬ nCreds ≤ key + 1 := by omega
  simp [runCall, hmsg, hk']

theorem runCall_auth_raise (nCreds key su cr : Nat) (msg : String)
    (rest : List ApiOutcome)
    (hmsg : classifyHttp msg = FailureClass.authorizationInvalid)
    (hk : nCreds ≤ key + 1) :
    runCall nCreds key su cr (ApiOutcome.httpError msg :: rest)
      = some ⟨CallEnd.raisedHttp msg, [Event.apiAttempt], key + 1⟩ := by
  simp [runCall, hmsg, hk]

theorem runCall_http_unclassified (nCreds key su cr : Nat) (msg : String)
    (rest : List ApiOutcome)
    (hmsg : classifyHttp msg = FailureClass.unclassified) :
    runCall nCreds key su cr (ApiOutcome.httpError msg :: rest)
      = some ⟨CallEnd.raisedHttp msg, [Event.apiAttempt], key⟩ := by
  simp [runCall, hmsg]

/-- Running `n` consecutive connection resets prepends `n` sleep/rebuild
rounds and adds `n` to the `connection_reset_by_peer` counter, as long as
the counter stays within the cap. -/
theorem runCall_cr_run (n : Nat) : ∀ (nCreds key su cr : Nat) (rest : List ApiOutcome),
    cr + n ≤ 10 →
    runCall nCreds key su cr
        (List.replicate n (ApiOutcome.socketError ECONNRESET) ++ rest)
      = (runCall nCreds key su (cr + n) rest).map
          (consEvs ((List.replicate n
            [Event.apiAttempt, Event.slept 60, Event.rebuilt key]).flatten)) := by
  induction n with
  | zero =>
    intro nCreds key su cr rest _
    simp [option_map_consEvs_nil]
  | succ n ih =>
    intro nCreds key su cr rest h
    rw [List.replicate_succ, List.cons_append,
      runCall_cr_step nCreds key su cr _ (by omega),
      ih nCreds key su (cr + 1) rest (by omega), Option.map_map,
      show cr + 1 + n = cr + (n + 1) by omega]
    have hfun : consEvs [Event.apiAttempt, Event.slept 60, Event.rebuilt key]
          ∘ consEvs (List.replicate n
              [Event.apiAttempt, Event.slept 60, Event.rebuilt key]).flatten
        = consEvs (List.replicate (n + 1)
            [Event.apiAttempt, Event.slept 60, Event.rebuilt key]).flatten := by
      funext r
      simp [consEvs, List.replicate_succ]
    rw [hfun]

/-- Running `n` consecutive service-unavailable errors prepends `n` sleep
rounds and adds `n` to the `service_unavailable` counter, while within the
cap. -/
theorem runCall_su_run (n : Nat) : ∀ (nCreds key su cr : Nat) (msg : String)
    (rest : List ApiOutcome),
    classifyHttp msg = FailureClass.serviceUnavailable →
    su + n ≤ 10 →
    runCall nCreds key su cr (List.replicate n (ApiOutcome.httpError msg) ++ rest)
      = (runCall nCreds key (su + n) cr rest).map
          (consEvs ((List.replicate n [Event.apiAttempt, Event.slept 30]).flatten)) := by
  induction n with
  | zero =>
    intro nCreds key su cr msg rest _ _
    simp [option_map_consEvs_nil]
  | succ n ih =>
    intro nCreds key su cr msg rest hmsg h
    rw [List.replicate_succ, List.cons_append,
      runCall_su_step nCreds key su cr msg _ hmsg (by omega),
      ih nCreds key (su + 1) cr msg rest hmsg (by omega), Option.map_map,
      show su + 1 + n = su + (n + 1) by omega]
    have hfun : consEvs [Event.apiAttempt, Event.slept 30]
          ∘ consEvs (List.replicate n [Event.apiAttempt, Event.slept 30]).flatten
        = consEvs (List.replicate (n + 1)
            [Event.apiAttempt, Event.slept 30]).flatten := by
      funext r
      simp [consEvs, List.replicate_succ]
    rw [hfun]

/-- C1: a failure classified as ConnectionReset is retried on the same
credential after a fixed 60-second sleep, one classified as
ServiceUnavailable after a fixed 30-second sleep; each class is capped at
10 retries, after which the call raises.  For `n ≤ 10` consecutive
failures of one class followed by a success the call succeeds after
exactly `n` sleeps of that class's interval and `n + 1` attempts, with the
credential index unchanged; for 11 consecutive failures it raises after 10
sleeps, without an 11th retry. -/
theorem retry_fixed_sleep_caps (nCreds key n : Nat) (items : List String)
    (msg : String) (hn : n ≤ 10)
    (hmsg : classifyHttp msg = FailureClass.serviceUnavailable) :
    (runCall nCreds key 0 0 (List.replicate n (ApiOutcome.socketError ECONNRESET)
        ++ [ApiOutcome.success items])
      = some ⟨CallEnd.succeeded items,
          (List.replicate n [Event.apiAttempt, Event.slept 60, Event.rebuilt key]).flatten
            ++ [Event.apiAttempt], key⟩)
  ∧ (runCall nCreds key 0 0 (List.replicate 11 (ApiOutcome.socketError ECONNRESET))
      = some ⟨CallEnd.raisedSocket ECONNRESET,
          (List.replicate 10 [Event.apiAttempt, Event.slept 60, Event.rebuilt key]).flatten
            ++ [Event.apiAttempt], key⟩)
  ∧ (runCall nCreds key 0 0 (List.replicate n (ApiOutcome.httpError msg)
        ++ [ApiOutcome.success items])
      = some ⟨CallEnd.succeeded items,
          (List.replicate n [Event.apiAttempt, Event.slept 30]).flatten
            ++ [Event.apiAttempt], key⟩)
  ∧ (runCall nCreds key 0 0 (List.replicate 11 (ApiOutcome.httpError msg))
      = some ⟨CallEnd.raisedHttp msg,
          (List.replicate 10 [Event.apiAttempt, Event.slept 30]).flatten
            ++ [Event.apiAttempt], key⟩) := by
  refine ⟨?_, ?_, ?_, ?_⟩
  · rw [runCall_cr_run n nCreds key 0 0 _ (by omega), Nat.zero_add,
      runCall_success]
    simp [consEvs]
  · rw [show (11 : Nat) = 10 + 1 by rfl, List.replicate_add,
      runCall_cr_run 10 nCreds key 0 0 _ (by omega), Nat.zero_add,
      show List.replicate 1 (ApiOutcome.socketError ECONNRESET)
        = [ApiOutcome.socketError ECONNRESET] from rfl,
      runCall_cr_raise nCreds key 0 10 [] (by omega)]
    simp [consEvs]
  · rw [runCall_su_run n nCreds key 0 0 msg _ hmsg (by omega), Nat.zero_add,
      runCall_success]
    simp [consEvs]
  · rw [show (11 : Nat) = 10 + 1 by rfl, List.replicate_add,
      runCall_su_run 10 nCreds key 0 0 msg _ hmsg (by omega), Nat.zero_add,
      show List.replicate 1 (ApiOutcome.httpError msg)
        = [ApiOutcome.httpError msg] from rfl,
      runCall_su_raise nCreds key 10 0 msg [] hmsg (by omega)]
    simp [consEvs]

/-- Witness for C1 at `nCreds = 1`, `key = 0`, `n = 2`, a one-item
response and the message `"HttpError 503"`. -/
theorem retry_fixed_sleep_caps_witness :
    (2 ≤ 10) ∧ (classifyHttp "HttpError 503" = FailureClass.serviceUnavailable) ∧
    ((runCall 1 0 0 0 (List.replicate 2 (ApiOutcome.socketError ECONNRESET)
        ++ [ApiOutcome.success ["a"]])
      = some ⟨CallEnd.succeeded ["a"],
          (List.replicate 2 [Event.apiAttempt, Event.slept 60, Event.rebuilt 0]).flatten
            ++ [Event.apiAttempt], 0⟩)
  ∧ (runCall 1 0 0 0 (List.replicate 11 (ApiOutcome.socketError ECONNRESET))
      = some ⟨CallEnd.raisedSocket ECONNRESET,
          (List.replicate 10 [Event.apiAttempt, Event.slept 60, Event.rebuilt 0]).flatten
            ++ [Event.apiAttempt], 0⟩)
  ∧ (runCall 1 0 0 0 (List.replicate 2 (ApiOutcome.httpError "HttpError 503")
        ++ [ApiOutcome.success ["a"]])
      = some ⟨CallEnd.succeeded ["a"],
          (List.replicate 2 [Event.apiAttempt, Event.slept 30]).flatten
            ++ [Event.apiAttempt], 0⟩)
  ∧ (runCall 1 0 0 0 (List.replicate 11 (ApiOutcome.httpError "HttpError 503"))
      = some ⟨CallEnd.raisedHttp "HttpError 503",
          (List.replicate 10 [Event.apiAttempt, Event.slept 30]).flatten
            ++ [Event.apiAttempt], 0⟩)) :=
  ⟨by decide, by decide,
    retry_fixed_sleep_caps 1 0 2 ["a"] "HttpError 503" (by decide) (by decide)⟩

/-- Rejecting all remaining credentials: starting at `key` with
`m + 1` credentials left, `m + 1` attempts are made, the index advances
once per rejection with a client rebuild, and after the last credential
the error is re-raised with the index at `nCreds` (no wrap-around). -/
theorem runCall_auth_exhaust (m : Nat) : ∀ (nCreds key su cr : Nat) (msg : String),
    classifyHttp msg = FailureClass.authorizationInvalid →
    key + (m + 1) = nCreds →
    runCall nCreds key su cr (List.replicate (m + 1) (ApiOutcome.httpError msg))
      = some ⟨CallEnd.raisedHttp msg,
          ((List.range m).map
            (fun i => [Event.apiAttempt, Event.rebuilt (key + i + 1)])).flatten
            ++ [Event.apiAttempt], nCreds⟩ := by
  induction m with
  | zero =>
    intro nCreds key su cr msg hmsg hkey
    rw [show List.replicate 1 (ApiOutcome.httpError msg)
        = [ApiOutcome.httpError msg] from rfl,
      runCall_auth_raise nCreds key su cr msg [] hmsg (by omega)]
    simp [hkey]
  | succ m ih =>
    intro nCreds key su cr msg hmsg hkey
    have hlist : [Event.apiAttempt, Event.rebuilt (key + 1)]
          ++ (((List.range m).map
              (fun i => [Event.apiAttempt, Event.rebuilt (key + 1 + i + 1)])).flatten
            ++ [Event.apiAttempt])
        = ((List.range (m + 1)).map
              (fun i => [Event.apiAttempt, Event.rebuilt (key + i + 1)])).flatten
            ++ [Event.apiAttempt] := by
      rw [List.range_succ_eq_map, List.map_cons, List.map_map, List.flatten_cons]
      have hf : ((fun i => [Event.apiAttempt, Event.rebuilt (key + i + 1)]) ∘ Nat.succ)
          = (fun i => [Event.apiAttempt, Event.rebuilt (key + 1 + i + 1)]) := by
        funext i
        simp only [Function.comp, Nat.succ_eq_add_one]
        have : key + (i + 1) + 1 = key + 1 + i + 1 := by omega
        rw [this]
      rw [hf]
      simp
    rw [List.replicate_succ,
      runCall_auth_step nCreds key su cr msg _ hmsg (by omega),
      ih nCreds (key + 1) su cr msg hmsg (by omega)]
    simp only [Option.map_some', consEvs]
    rw [hlist]

/-- C2: an AuthorizationInvalid rejection advances to the next credential,
rebuilds the client with it, and retries immediately with no sleep; with
two rejections then a success there are exactly 3 attempts, two rebuilds
at `key+1` and `key+2`, no sleeps, and the final credential index is
`key+2`.  When every remaining credential is rejected the call raises
after the last one with the index at `nCreds`, never wrapping back. -/
theorem credential_rotation_exhaustion (nCreds key su cr m : Nat)
    (items : List String) (m1 m2 msg : String)
    (h1 : classifyHttp m1 = FailureClass.authorizationInvalid)
    (h2 : classifyHttp m2 = FailureClass.authorizationInvalid)
    (hmsg : classifyHttp msg = FailureClass.authorizationInvalid)
    (hk : key + 2 < nCreds) (hm : key + (m + 1) = nCreds) :
    (runCall nCreds key su cr
        [ApiOutcome.httpError m1, ApiOutcome.httpError m2, ApiOutcome.success items]
      = some ⟨CallEnd.succeeded items,
          [Event.apiAttempt, Event.rebuilt (key + 1),
           Event.apiAttempt, Event.rebuilt (key + 2), Event.apiAttempt], key + 2⟩)
  ∧ (runCall nCreds key su cr (List.replicate (m + 1) (ApiOutcome.httpError msg))
      = some ⟨CallEnd.raisedHttp msg,
          ((List.range m).map
            (fun i => [Event.apiAttempt, Event.rebuilt (key + i + 1)])).flatten
            ++ [Event.apiAttempt], nCreds⟩) := by
  constructor
  · rw [runCall_auth_step nCreds key su cr m1 _ h1 (by omega),
      runCall_auth_step nCreds (key + 1) su cr m2 _ h2 (by omega),
      runCall_success]
    simp [consEvs]
  · exact runCall_auth_exhaust m nCreds key su cr msg hmsg hm

/-- Witness for C2 with credentials `[k1, k2, k3]` (indices 0, 1, 2),
starting at index 0. -/
theorem credential_rotation_exhaustion_witness :
    (classifyHttp "e403" = FailureClass.authorizationInvalid) ∧
    ((0 : Nat) + 2 < 3) ∧ ((0 : Nat) + (2 + 1) = 3) ∧
    ((runCall 3 0 0 0
        [ApiOutcome.httpError "e403", ApiOutcome.httpError "e403",
         ApiOutcome.success ["a"]]
      = some ⟨CallEnd.succeeded ["a"],
          [Event.apiAttempt, Event.rebuilt 1,
           Event.apiAttempt, Event.rebuilt 2, Event.apiAttempt], 2⟩)
  ∧ (runCall 3 0 0 0 (List.replicate 3 (ApiOutcome.httpError "e403"))
      = some ⟨CallEnd.raisedHttp "e403",
          ((List.range 2).map
            (fun i => [Event.apiAttempt, Event.rebuilt (0 + i + 1)])).flatten
            ++ [Event.apiAttempt], 3⟩)) :=
  ⟨by decide, by decide, by decide,
    by
      have h := credential_rotation_exhaustion 3 0 0 0 2 ["a"] "e403" "e403" "e403"
        (by decide) (by decide) (by decide) (by decide) (by decide)
      simpa using h⟩

/-- C3 counterexample: after ten ConnectionReset failures and one
ServiceUnavailable failure, a further ConnectionReset failure does not
start again from attempt 1.  The code raises (its counter reaches 11),
whereas the loop that resets a class's counter on class change
(`runCallSpecReset`, following the spec's words) sleeps, retries and
succeeds on the very same script. -/
theorem retry_counter_reset_counterexample :
    ((runCall 1 0 0 0
        (List.replicate 10 (ApiOutcome.socketError ECONNRESET)
          ++ [ApiOutcome.httpError "e503", ApiOutcome.socketError ECONNRESET,
              ApiOutcome.success ["x"]])).map CallResult.outcome
      = some (CallEnd.raisedSocket ECONNRESET))
  ∧ ((runCallSpecReset 1 0 0 0
        (List.replicate 10 (ApiOutcome.socketError ECONNRESET)
          ++ [ApiOutcome.httpError "e503", ApiOutcome.socketError ECONNRESET,
              ApiOutcome.success ["x"]])).map CallResult.outcome
      = some (CallEnd.succeeded ["x"])) := by
  decide

/-- C3 amended: within one call each failure class keeps its own attempt
counter, initialized at the start of the call and never reset when the
failure class changes: failures of one class accumulate across interleaved
failures of the other class.  With `a` resets, `b` service-unavailable
failures, `c` more resets and then a success, the call succeeds whenever
`a + c ≤ 10` and `b ≤ 10`; with `a' + c' = 11` split around `b' ≤ 10`
unavailable failures, the call raises at the last reset even though no
consecutive run of resets exceeds 10. -/
theorem retry_counters_accumulate (nCreds key a b c a' b' c' : Nat)
    (items : List String) (msg : String)
    (hmsg : classifyHttp msg = FailureClass.serviceUnavailable)
    (hac : a + c ≤ 10) (hb : b ≤ 10)
    (hb' : b' ≤ 10) (hac' : a' + c' = 11) (hc' : 1 ≤ c') :
    (runCall nCreds key 0 0
        (List.replicate a (ApiOutcome.socketError ECONNRESET)
          ++ List.replicate b (ApiOutcome.httpError msg)
          ++ List.replicate c (ApiOutcome.socketError ECONNRESET)
          ++ [ApiOutcome.success items])
      = some ⟨CallEnd.succeeded items,
          (List.replicate a [Event.apiAttempt, Event.slept 60, Event.rebuilt key]).flatten
            ++ (List.replicate b [Event.apiAttempt, Event.slept 30]).flatten
            ++ (List.replicate c [Event.apiAttempt, Event.slept 60, Event.rebuilt key]).flatten
            ++ [Event.apiAttempt], key⟩)
  ∧ (runCall nCreds key 0 0
        (List.replicate a' (ApiOutcome.socketError ECONNRESET)
          ++ List.replicate b' (ApiOutcome.httpError msg)
          ++ List.replicate c' (ApiOutcome.socketError ECONNRESET))
      = some ⟨CallEnd.raisedSocket ECONNRESET,
          (List.replicate a' [Event.apiAttempt, Event.slept 60, Event.rebuilt key]).flatten
            ++ (List.replicate b' [Event.apiAttempt, Event.slept 30]).flatten
            ++ (List.replicate (c' - 1)
                  [Event.apiAttempt, Event.slept 60, Event.rebuilt key]).flatten
            ++ [Event.apiAttempt], key⟩) := by
  constructor
  · simp only [List.append_assoc]
    rw [runCall_cr_run a nCreds key 0 0 _ (by omega), Nat.zero_add,
      runCall_su_run b nCreds key 0 a msg _ hmsg (by omega), Nat.zero_add,
      runCall_cr_run c nCreds key b a _ (by omega),
      runCall_success]
    simp [consEvs, List.append_assoc]
  · obtain ⟨d, rfl⟩ : ∃ d, c' = d + 1 := ⟨c' - 1, by omega⟩
    simp only [List.append_assoc, List.replicate_add]
    rw [runCall_cr_run a' nCreds key 0 0 _ (by omega), Nat.zero_add,
      runCall_su_run b' nCreds key 0 a' msg _ hmsg (by omega), Nat.zero_add,
      runCall_cr_run d nCreds key b' a' _ (by omega),
      show List.replicate 1 (ApiOutcome.socketError ECONNRESET)
        = [ApiOutcome.socketError ECONNRESET] from rfl,
      runCall_cr_raise nCreds key b' (a' + d) [] (by omega)]
    simp [consEvs, List.append_assoc]

/-- Witness for C3's amended theorem at `a = 5, b = 3, c = 5` and
`a' = 5, b' = 3, c' = 6`. -/
theorem retry_counters_accumulate_witness :
    (classifyHttp "e503" = FailureClass.serviceUnavailable) ∧
    ((5 : Nat) + 5 ≤ 10) ∧ ((3 : Nat) ≤ 10) ∧ ((5 : Nat) + 6 = 11) ∧ ((1 : Nat) ≤ 6) ∧
    ((runCall 2 0 0 0
        (List.replicate 5 (ApiOutcome.socketError ECONNRESET)
          ++ List.replicate 3 (ApiOutcome.httpError "e503")
          ++ List.replicate 5 (ApiOutcome.socketError ECONNRESET)
          ++ [ApiOutcome.success ["a"]])
      = some ⟨CallEnd.succeeded ["a"],
          (List.replicate 5 [Event.apiAttempt, Event.slept 60, Event.rebuilt 0]).flatten
            ++ (List.replicate 3 [Event.apiAttempt, Event.slept 30]).flatten
            ++ (List.replicate 5 [Event.apiAttempt, Event.slept 60, Event.rebuilt 0]).flatten
            ++ [Event.apiAttempt], 0⟩)
  ∧ (runCall 2 0 0 0
        (List.replicate 5 (ApiOutcome.socketError ECONNRESET)
          ++ List.replicate 3 (ApiOutcome.httpError "e503")
          ++ List.replicate 6 (ApiOutcome.socketError ECONNRESET))
      = some ⟨CallEnd.raisedSocket ECONNRESET,
          (List.replicate 5 [Event.apiAttempt, Event.slept 60, Event.rebuilt 0]).flatten
            ++ (List.replicate 3 [Event.apiAttempt, Event.slept 30]).flatten
            ++ (List.replicate (6 - 1)
                  [Event.apiAttempt, Event.slept 60, Event.rebuilt 0]).flatten
            ++ [Event.apiAttempt], 0⟩)) :=
  ⟨by decide, by decide, by decide, by decide, by decide,
    retry_counters_accumulate 2 0 5 3 5 5 3 6 ["a"] "e503"
      (by decide) (by decide) (by decide) (by decide) (by decide) (by decide)⟩

/-- C10: classification of an upstream HTTP error is a function of the
error's string rendering alone, decided by substring containment in fixed
precedence: a string containing "403" is AuthorizationInvalid even when it
also contains "503" or "500"; otherwise "503" or "500" gives
ServiceUnavailable; otherwise the failure is unclassified. -/
theorem http_classification_precedence (m1 m2 m3 : String)
    (h1 : containsSub m1 "403" = true)
    (h2a : containsSub m2 "403" = false)
    (h2b : containsSub m2 "503" = true ∨ containsSub m2 "500" = true)
    (h3a : containsSub m3 "403" = false)
    (h3b : containsSub m3 "503" = false)
    (h3c : containsSub m3 "500" = false) :
    classifyHttp m1 = FailureClass.authorizationInvalid
  ∧ classifyHttp m2 = FailureClass.serviceUnavailable
  ∧ classifyHttp m3 = FailureClass.unclassified := by
  refine ⟨?_, ?_, ?_⟩
  · simp [classifyHttp, h1]
  · rcases h2b with h | h <;> simp [classifyHttp, h2a, h]
  · simp [classifyHttp, h3a, h3b, h3c]

/-- Witness for C10; the first message contains "403" together with "503"
and "500" and is still classified as the credential rejection. -/
theorem http_classification_precedence_witness :
    (containsSub "HttpError 403 503 500" "403" = true) ∧
    (containsSub "HttpError 500 returned" "403" = false) ∧
    (containsSub "HttpError 500 returned" "500" = true) ∧
    (containsSub "timed out" "403" = false) ∧
    (containsSub "timed out" "503" = false) ∧
    (containsSub "timed out" "500" = false) ∧
    (classifyHttp "HttpError 403 503 500" = FailureClass.authorizationInvalid
      ∧ classifyHttp "HttpError 500 returned" = FailureClass.serviceUnavailable
      ∧ classifyHttp "timed out" = FailureClass.unclassified) :=
  ⟨by decide, by decide, by decide, by decide, by decide, by decide,
    http_classification_precedence "HttpError 403 503 500" "HttpError 500 returned"
      "timed out" (by decide) (by decide) (Or.inr (by decide)) (by decide)
      (by decide) (by decide)⟩

/-- Everything the retry loop itself emits is an attempt, a sleep or a
client rebuild, and a successful outcome's items come from a `success`
entry of the script. -/
theorem runCall_shape (s : List ApiOutcome) : ∀ (nCreds key su cr : Nat) (r : CallResult),
    runCall nCreds key su cr s = some r →
    r.events.all isCallEvent = true
  ∧ (∀ items, r.outcome = CallEnd.succeeded items → ApiOutcome.success items ∈ s) := by
  induction s with
  | nil =>
    intro nCreds key su cr r h
    simp [runCall] at h
  | cons o rest ih =>
    intro nCreds key su cr r h
    cases o with
    | success items =>
      rw [runCall_success] at h
      cases h
      refine ⟨by simp [isCallEvent], ?_⟩
      intro its hout
      simp only [CallEnd.succeeded.injEq] at hout
      subst hout
      exact List.mem_cons_self _ _
    | socketError e =>
      by_cases he : e = ECONNRESET
      · subst he
        by_cases hcr : cr + 1 ≤ 10
        · rw [runCall_cr_step _ _ _ _ _ hcr] at h
          cases hrec : runCall nCreds key su (cr + 1) rest with
          | none => rw [hrec] at h; simp at h
          | some r' =>
            rw [hrec, Option.map_some'] at h
            cases h
            obtain ⟨hall, hsucc⟩ := ih nCreds key su (cr + 1) r' hrec
            constructor
            · simpa [consEvs, List.all_append, isCallEvent] using hall
            · intro its hout
              exact List.mem_cons_of_mem _ (hsucc its hout)
        · rw [runCall_cr_raise _ _ _ _ _ (by omega)] at h
          cases h
          exact ⟨by simp [isCallEvent], by intro its hout; simp at hout⟩
      · rw [runCall_socket_other _ _ _ _ _ _ he] at h
        cases h
        exact ⟨by simp [isCallEvent], by intro its hout; simp at hout⟩
    | httpError msg =>
      cases hcl : classifyHttp msg with
      | authorizationInvalid =>
        by_cases hk : nCreds ≤ key + 1
        · rw [runCall_auth_raise _ _ _ _ _ _ hcl hk] at h
          cases h
          exact ⟨by simp [isCallEvent], by intro its hout; simp at hout⟩
        · rw [runCall_auth_step _ _ _ _ _ _ hcl (by omega)] at h
          cases hrec : runCall nCreds (key + 1) su cr rest with
          | none => rw [hrec] at h; simp at h
          | some r' =>
            rw [hrec, Option.map_some'] at h
            cases h
            obtain ⟨hall, hsucc⟩ := ih nCreds (key + 1) su cr r' hrec
            constructor
            · simpa [consEvs, List.all_append, isCallEvent] using hall
            · intro its hout
              exact List.mem_cons_of_mem _ (hsucc its hout)
      | serviceUnavailable =>
        by_cases hsu : su + 1 ≤ 10
        · rw [runCall_su_step _ _ _ _ _ _ hcl hsu] at h
          cases hrec : runCall nCreds key (su + 1) cr rest with
          | none => rw [hrec] at h; simp at h
          | some r' =>
            rw [hrec, Option.map_some'] at h
            cases h
            obtain ⟨hall, hsucc⟩ := ih nCreds key (su + 1) cr r' hrec
            constructor
            · simpa [consEvs, List.all_append, isCallEvent] using hall
            · intro its hout
              exact List.mem_cons_of_mem _ (hsucc its hout)
        · rw [runCall_su_raise _ _ _ _ _ _ hcl (by omega)] at h
          cases h
          exact ⟨by simp [isCallEvent], by intro its hout; simp at hout⟩
      | unclassified =>
        rw [runCall_http_unclassified _ _ _ _ _ _ hcl] at h
        cases h
        exact ⟨by simp [isCallEvent], by intro its hout; simp at hout⟩

theorem call_event_proc (e : Event) : isCallEvent e = true → isProcEvent e = true := by
  cases e <;> simp [isCallEvent, isProcEvent]

theorem all_call_all_proc (es : List Event) :
    es.all isCallEvent = true → es.all isProcEvent = true := by
  simp only [List.all_eq_true]
  intro h e he
  exact call_event_proc e (h e he)

theorem all_call_no_wrote (es : List Event) :
    es.all isCallEvent = true → wroteCount es = 0 := by
  simp only [List.all_eq_true, wroteCount, List.countP_eq_zero]
  intro h e he
  have := h e he
  cases e <;> simp_all [isCallEvent]

theorem wroteCount_append (es es' : List Event) :
    wroteCount (es ++ es') = wroteCount es + wroteCount es' := by
  simp [wroteCount, List.countP_append]

theorem wroteCount_map_wrote (items : List String) :
    wroteCount (items.map Event.wrote) = items.length := by
  simp [wroteCount, List.countP_map, Function.comp]

theorem processChannels_nil (nCreds key : Nat) :
    processChannels nCreds key [] = some ⟨[], 0, key, none⟩ := rfl

/-- The channel loop only emits processing events; when it finishes
without an exception it counts exactly one channel per script row, and if
every scripted success carries exactly one item it writes exactly one JSON
record per channel. -/
theorem processChannels_shape (scripts : List (List ApiOutcome)) :
    ∀ (nCreds key : Nat) (lr : LoopResult),
    processChannels nCreds key scripts = some lr →
    lr.events.all isProcEvent = true
  ∧ (lr.err = none → lr.numChannels = scripts.length)
  ∧ (lr.err = none → singleItemScripts scripts = true →
      wroteCount lr.events = scripts.length) := by
  induction scripts with
  | nil =>
    intro nCreds key lr h
    rw [processChannels_nil] at h
    cases h
    exact ⟨rfl, fun _ => rfl, fun _ _ => rfl⟩
  | cons s ss ih =>
    intro nCreds key lr h
    simp only [processChannels] at h
    cases hcall : runCall nCreds key 0 0 s with
    | none => rw [hcall] at h; simp at h
    | some r =>
      rw [hcall] at h
      dsimp only at h
      obtain ⟨hall, hsucc⟩ := runCall_shape s nCreds key 0 0 r hcall
      cases hout : r.outcome with
      | succeeded items =>
        rw [hout] at h
        dsimp only at h
        cases hrec : processChannels nCreds r.finalKey ss with
        | none => rw [hrec] at h; simp at h
        | some lr' =>
          rw [hrec, Option.map_some'] at h
          cases h
          obtain ⟨ih1, ih2, ih3⟩ := ih nCreds r.finalKey lr' hrec
          refine ⟨?_, ?_, ?_⟩
          · simp only [List.all_append, Bool.and_eq_true]
            refine ⟨⟨all_call_all_proc _ hall, ?_⟩, ih1⟩
            simp [List.all_eq_true, List.mem_map, isProcEvent]
          · intro herr
            simp only [List.length_cons]
            simp only at herr
            rw [ih2 herr]
          · intro herr hsingle
            simp only at herr
            have hsingle' : singleItemScripts ss = true := by
              simp only [singleItemScripts, List.all_cons, Bool.and_eq_true] at hsingle
              exact hsingle.2
            have hone : items.length = 1 := by
              simp only [singleItemScripts, List.all_cons, Bool.and_eq_true,
                List.all_eq_true] at hsingle
              have := hsingle.1 (ApiOutcome.success items) (hsucc items hout)
              simpa using this
            simp only [wroteCount_append, all_call_no_wrote _ hall,
              wroteCount_map_wrote, ih3 herr hsingle', hone, List.length_cons]
            omega
      | raisedSocket e =>
        rw [hout] at h
        dsimp only at h
        cases h
        refine ⟨all_call_all_proc _ hall, ?_, ?_⟩
        · intro herr; simp at herr
        · intro herr; simp at herr
      | raisedHttp msg =>
        rw [hout] at h
        dsimp only at h
        cases h
        refine ⟨all_call_all_proc _ hall, ?_, ?_⟩
        · intro herr; simp at herr
        · intro herr; simp at herr

/-- Shape of a whole run: on clean completion the trace is a processing
prefix followed by exactly upload, drop, create, repair, the upload key
embeds `num_channels`, and (in the all-single-item case) one record is
written per channel; on a propagated exception only processing events
happened and nothing was uploaded. -/
theorem collect_shape (nCreds : Nat) (date u : String)
    (scripts : List (List ApiOutcome)) (r : RunOutcome)
    (h : collect_channel_stats nCreds date u scripts = some r) :
    (r.err = none →
      r.events = r.events.take (r.events.length - 4)
          ++ [Event.uploaded (uploadKeyFormat date u r.numChannels),
              Event.droppedTable, Event.createdTable, Event.repairedTable]
        ∧ (r.events.take (r.events.length - 4)).all isProcEvent = true
        ∧ r.uploadKey = some (uploadKeyFormat date u r.numChannels)
        ∧ r.numChannels = scripts.length
        ∧ (singleItemScripts scripts = true → wroteCount r.events = r.numChannels))
  ∧ (r.err.isSome = true → r.events.all isProcEvent = true ∧ r.uploadKey = none) := by
  simp only [collect_channel_stats] at h
  cases hp : processChannels nCreds 0 scripts with
  | none => rw [hp] at h; simp at h
  | some lr =>
    rw [hp, Option.map_some'] at h
    obtain ⟨p1, p2, p3⟩ := processChannels_shape scripts nCreds 0 lr hp
    cases herr : lr.err with
    | none =>
      rw [herr] at h
      dsimp only at h
      cases h
      constructor
      · intro _
        have hlen : (lr.events
            ++ [Event.uploaded (uploadKeyFormat date u lr.numChannels),
                Event.droppedTable, Event.createdTable, Event.repairedTable]).length - 4
            = lr.events.length := by
          simp
        have htake : (lr.events
            ++ [Event.uploaded (uploadKeyFormat date u lr.numChannels),
                Event.droppedTable, Event.createdTable, Event.repairedTable]).take
              (lr.events.length)
            = lr.events := List.take_left _ _
        refine ⟨?_, ?_, rfl, p2 herr, ?_⟩
        · dsimp only
          rw [hlen, htake]
        · dsimp only
          rw [hlen, htake]
          exact p1
        · intro hsingle
          dsimp only
          rw [wroteCount_append, p3 herr hsingle, p2 herr]
          simp [wroteCount]
      · intro hsome
        simp at hsome
    | some e =>
      rw [herr] at h
      dsimp only at h
      cases h
      constructor
      · intro hnone
        simp at hnone
      · intro _
        exact ⟨p1, rfl⟩

theorem all_proc_no_table (es : List Event) (h : es.all isProcEvent = true) :
    es.count Event.droppedTable = 0 ∧ es.count Event.createdTable = 0
  ∧ es.count Event.repairedTable = 0 := by
  simp only [List.all_eq_true] at h
  refine ⟨?_, ?_, ?_⟩ <;>
    · rw [List.count_eq_zero]
      intro hmem
      have := h _ hmem
      simp [isProcEvent] at this

/-- C6: in every run the drop+create+repair sequence occurs at most once;
when the run completes it occurs exactly once, strictly after all
processing events and after the upload, never interleaved with fetching;
when the run aborts it does not occur at all. -/
theorem table_recreated_once_after_processing (nCreds : Nat) (date u : String)
    (scripts : List (List ApiOutcome)) (r : RunOutcome)
    (h : collect_channel_stats nCreds date u scripts = some r) :
    (r.events.count Event.droppedTable ≤ 1
      ∧ r.events.count Event.createdTable ≤ 1
      ∧ r.events.count Event.repairedTable ≤ 1)
  ∧ (r.err = none →
      r.events = r.events.take (r.events.length - 4)
          ++ [Event.uploaded (uploadKeyFormat date u r.numChannels),
              Event.droppedTable, Event.createdTable, Event.repairedTable]
        ∧ (r.events.take (r.events.length - 4)).all isProcEvent = true)
  ∧ (r.err.isSome = true → r.events.all isProcEvent = true) := by
  obtain ⟨hclean, herrc⟩ := collect_shape nCreds date u scripts r h
  cases herr : r.err with
  | none =>
    obtain ⟨hdecomp, hprefix, _, _, _⟩ := hclean herr
    obtain ⟨c1, c2, c3⟩ := all_proc_no_table _ hprefix
    refine ⟨⟨?_, ?_, ?_⟩, fun _ => ⟨hdecomp, hprefix⟩, ?_⟩
    · conv_lhs => rw [hdecomp]
      rw [List.count_append, c1]
      simp [List.count_cons]
    · conv_lhs => rw [hdecomp]
      rw [List.count_append, c2]
      simp [List.count_cons]
    · conv_lhs => rw [hdecomp]
      rw [List.count_append, c3]
      simp [List.count_cons]
    · intro hsome
      simp at hsome
  | some e =>
    obtain ⟨hall, _⟩ := herrc (by rw [herr]; rfl)
    obtain ⟨c1, c2, c3⟩ := all_proc_no_table _ hall
    exact ⟨⟨by omega, by omega, by omega⟩,
      by intro hnone; simp at hnone,
      fun _ => hall⟩

/-- Witness for C6 on a run with one channel returning one item. -/
theorem table_recreated_once_after_processing_witness :
    (collect_channel_stats 1 "d" "u" [[ApiOutcome.success ["a"]]] = some runW1) ∧
    ((runW1.events.count Event.droppedTable ≤ 1
        ∧ runW1.events.count Event.createdTable ≤ 1
        ∧ runW1.events.count Event.repairedTable ≤ 1)
      ∧ (runW1.err = none →
          runW1.events = runW1.events.take (runW1.events.length - 4)
              ++ [Event.uploaded (uploadKeyFormat "d" "u" runW1.numChannels),
                  Event.droppedTable, Event.createdTable, Event.repairedTable]
            ∧ (runW1.events.take (runW1.events.length - 4)).all isProcEvent = true)
      ∧ (runW1.err.isSome = true → runW1.events.all isProcEvent = true)) :=
  ⟨by decide,
    table_recreated_once_after_processing 1 "d" "u" [[ApiOutcome.success ["a"]]]
      runW1 (by decide)⟩

/-- C5 counterexample: a run over a single channel whose (successful)
response carries zero items uploads a file holding 0 records under a key
whose record-count component is 1 (the number of channels processed), so
the key's count is not the number of records in the file. -/
theorem upload_key_record_count_counterexample :
    (collect_channel_stats 1 "d" "u" [[ApiOutcome.success []]]
      = some ⟨[Event.apiAttempt,
               Event.uploaded "youtube_channel_stats/creation_date=d/u-1.json.bz2",
               Event.droppedTable, Event.createdTable, Event.repairedTable],
              1, some "youtube_channel_stats/creation_date=d/u-1.json.bz2", none⟩)
  ∧ wroteCount [Event.apiAttempt,
      Event.uploaded "youtube_channel_stats/creation_date=d/u-1.json.bz2",
      Event.droppedTable, Event.createdTable, Event.repairedTable] = 0
  ∧ uploadKeyFormat "d" "u" 1
      = "youtube_channel_stats/creation_date=d/u-1.json.bz2"
  ∧ (0 : Nat) ≠ 1 := by
  decide

/-- C5 amended: every completed run uploads one file to a key of the form
`youtube_channel_stats/creation_date=<date>/<uuid>-<n>.json.bz2` where `n`
is `num_channels`, the number of channel ids processed — not the record
count; it equals the number of records in the file exactly when every
fetched response contributes exactly one record. -/
theorem upload_key_channel_count (nCreds : Nat) (date u : String)
    (scripts : List (List ApiOutcome)) (r : RunOutcome)
    (h : collect_channel_stats nCreds date u scripts = some r)
    (herr : r.err = none) (hsingle : singleItemScripts scripts = true) :
    r.uploadKey = some (uploadKeyFormat date u r.numChannels)
  ∧ r.numChannels = scripts.length
  ∧ wroteCount r.events = r.numChannels := by
  obtain ⟨hclean, _⟩ := collect_shape nCreds date u scripts r h
  obtain ⟨_, _, hkey, hnum, hwrote⟩ := hclean herr
  exact ⟨hkey, hnum, hwrote hsingle⟩

/-- Witness for C5's amended theorem on a run with one channel returning
one item. -/
theorem upload_key_channel_count_witness :
    (collect_channel_stats 1 "d" "u" [[ApiOutcome.success ["a"]]] = some runW1) ∧
    (runW1.err = none) ∧ (singleItemScripts [[ApiOutcome.success ["a"]]] = true) ∧
    (runW1.uploadKey = some (uploadKeyFormat "d" "u" runW1.numChannels)
      ∧ runW1.numChannels = 1
      ∧ wroteCount runW1.events = runW1.numChannels) :=
  ⟨by decide, by decide, by decide,
    upload_key_channel_count 1 "d" "u" [[ApiOutcome.success ["a"]]] runW1
      (by decide) (by decide) (by decide)⟩

/-- C7: a socket error other than ECONNRESET, or an HTTP error containing
none of "403", "503", "500", terminates the call immediately: one attempt,
no sleep, no retry, the exception re-raised unchanged; the exception
escapes the channel loop (the run records the error, uploads nothing and
recreates nothing), and in every run that ends with a propagated error
nothing was uploaded. -/
theorem unclassified_fatal (nCreds key su cr e : Nat) (msgU : String)
    (rest rest' : List ApiOutcome) (date u : String)
    (scripts : List (List ApiOutcome))
    (he : e ≠ ECONNRESET) (hU : classifyHttp msgU = FailureClass.unclassified) :
    (runCall nCreds key su cr (ApiOutcome.socketError e :: rest)
      = some ⟨CallEnd.raisedSocket e, [Event.apiAttempt], key⟩)
  ∧ (runCall nCreds key su cr (ApiOutcome.httpError msgU :: rest')
      = some ⟨CallEnd.raisedHttp msgU, [Event.apiAttempt], key⟩)
  ∧ (collect_channel_stats nCreds date u [ApiOutcome.httpError msgU :: rest']
      = some ⟨[Event.apiAttempt], 1, none, some (CallEnd.raisedHttp msgU)⟩)
  ∧ (Option.all (fun r => !r.err.isSome || r.uploadKey.isNone)
      (collect_channel_stats nCreds date u scripts) = true) := by
  refine ⟨runCall_socket_other nCreds key su cr e rest he,
    runCall_http_unclassified nCreds key su cr msgU rest' hU, ?_, ?_⟩
  · have hc : runCall nCreds 0 0 0 (ApiOutcome.httpError msgU :: rest')
        = some ⟨CallEnd.raisedHttp msgU, [Event.apiAttempt], 0⟩ :=
      runCall_http_unclassified nCreds 0 0 0 msgU rest' hU
    simp only [collect_channel_stats, processChannels, hc]
    rfl
  · cases hcol : collect_channel_stats nCreds date u scripts with
    | none => rfl
    | some r =>
      obtain ⟨_, herrc⟩ := collect_shape nCreds date u scripts r hcol
      cases herr : r.err with
      | none => simp [Option.all, herr]
      | some err =>
        obtain ⟨_, hup⟩ := herrc (by rw [herr]; rfl)
        simp [Option.all, herr, hup]

/-- Witness for C7 with socket errno 1 and the message "boom". -/
theorem unclassified_fatal_witness :
    ((1 : Nat) ≠ ECONNRESET) ∧
    (classifyHttp "boom" = FailureClass.unclassified) ∧
    ((runCall 1 0 0 0 [ApiOutcome.socketError 1]
      = some ⟨CallEnd.raisedSocket 1, [Event.apiAttempt], 0⟩)
  ∧ (runCall 1 0 0 0 [ApiOutcome.httpError "boom"]
      = some ⟨CallEnd.raisedHttp "boom", [Event.apiAttempt], 0⟩)
  ∧ (collect_channel_stats 1 "d" "u" [[ApiOutcome.httpError "boom"]]
      = some ⟨[Event.apiAttempt], 1, none, some (CallEnd.raisedHttp "boom")⟩)
  ∧ (Option.all (fun r => !r.err.isSome || r.uploadKey.isNone)
      (collect_channel_stats 1 "d" "u" [[ApiOutcome.success ["a"]]]) = true)) :=
  ⟨by decide, by decide,
    unclassified_fatal 1 0 0 0 1 "boom" [] [] "d" "u" [[ApiOutcome.success ["a"]]]
      (by decide) (by decide)⟩

/-- C4: the candidate set is the distinct non-null upstream channel ids;
when the output table already exists, the ids present in today's partition
are subtracted, so a second run against the same day partition excludes
every id stored by the first; when the table does not exist, the
unfiltered distinct set is used. -/
theorem candidate_ids_dedupe (upstream : List (Option String))
    (stored : List (String × String)) (today : String) (c : String)
    (S : List String) (hS : ∀ s ∈ S, (s, today) ∈ stored) :
    (candidateIds false upstream stored today
      = (upstream.filterMap (fun x => x)).dedup)
  ∧ (c ∈ candidateIds true upstream stored today ↔
      (some c ∈ upstream ∧ (c, today) ∉ stored))
  ∧ (∀ s ∈ S, s ∉ candidateIds true upstream stored today) := by
  have hmem : ∀ c1 : String, c1 ∈ candidateIds true upstream stored today ↔
      (some c1 ∈ upstream ∧ (c1, today) ∉ stored) := by
    intro c1
    simp [candidateIds, List.mem_dedup, List.mem_filter, List.mem_filterMap]
  refine ⟨by simp [candidateIds], hmem c, ?_⟩
  intro s hs hcand
  exact ((hmem s).mp hcand).2 (hS s hs)

/-- Witness for C4: upstream ids a, b, b and a null; b already stored
today, a stored under another date. -/
theorem candidate_ids_dedupe_witness :
    (∀ s ∈ ["b"], (s, "2026-10-12") ∈ [("b", "2026-10-12"), ("a", "2026-10-11")]) ∧
    ((candidateIds false [some "a", some "b", none, some "b"]
        [("b", "2026-10-12"), ("a", "2026-10-11")] "2026-10-12"
      = (([some "a", some "b", none, some "b"] :
          List (Option String)).filterMap (fun x => x)).dedup)
  ∧ ("a" ∈ candidateIds true [some "a", some "b", none, some "b"]
        [("b", "2026-10-12"), ("a", "2026-10-11")] "2026-10-12" ↔
      (some "a" ∈ [some "a", some "b", none, some "b"]
        ∧ ("a", "2026-10-12") ∉ [("b", "2026-10-12"), ("a", "2026-10-11")]))
  ∧ (∀ s ∈ ["b"], s ∉ candidateIds true [some "a", some "b", none, some "b"]
        [("b", "2026-10-12"), ("a", "2026-10-11")] "2026-10-12")) :=
  ⟨by decide,
    candidate_ids_dedupe [some "a", some "b", none, some "b"]
      [("b", "2026-10-12"), ("a", "2026-10-11")] "2026-10-12" "a" ["b"]
      (by decide)⟩

theorem makeBatchesAux_nil (fuel : Nat) :
    makeBatchesAux fuel ([] : List α) = [] := by
  cases fuel <;> rfl

/-- Concatenating the produced batches gives back the ids, in order. -/
theorem makeBatchesAux_flatten (fuel : Nat) : ∀ ids : List α, ids.length ≤ fuel →
    (makeBatchesAux fuel ids).flatten = ids := by
  induction fuel with
  | zero =>
    intro ids h
    have : ids = [] := List.length_eq_zero.mp (by omega)
    subst this
    rfl
  | succ f ih =>
    intro ids h
    cases ids with
    | nil => rfl
    | cons x t =>
      simp only [List.length_cons] at h
      show ((x :: t).take 1000 :: makeBatchesAux f ((x :: t).drop 1000)).flatten = x :: t
      rw [List.flatten_cons, ih ((x :: t).drop 1000)
        (by simp only [List.length_drop, List.length_cons]; omega)]
      exact List.take_append_drop 1000 (x :: t)

/-- The batch sizes: `len / 1000` full batches of 1000 followed by one
batch of `len mod 1000` when the division is not exact. -/
theorem makeBatchesAux_sizes (fuel : Nat) : ∀ ids : List α, ids.length ≤ fuel →
    (makeBatchesAux fuel ids).map List.length
      = List.replicate (ids.length / 1000) 1000
        ++ (if ids.length % 1000 = 0 then [] else [ids.length % 1000]) := by
  induction fuel with
  | zero =>
    intro ids h
    have : ids = [] := List.length_eq_zero.mp (by omega)
    subst this
    simp [makeBatchesAux]
  | succ f ih =>
    intro ids h
    cases ids with
    | nil => simp [makeBatchesAux_nil]
    | cons x t =>
      simp only [List.length_cons] at h
      show ((x :: t).take 1000 :: makeBatchesAux f ((x :: t).drop 1000)).map List.length
        = List.replicate ((x :: t).length / 1000) 1000
          ++ (if (x :: t).length % 1000 = 0 then [] else [(x :: t).length % 1000])
      rw [List.map_cons, ih ((x :: t).drop 1000)
        (by simp only [List.length_drop, List.length_cons]; omega),
        List.length_drop, List.length_take, List.length_cons]
      by_cases hlen : t.length + 1 ≤ 1000
      · have hmin : min 1000 (t.length + 1) = t.length + 1 := by omega
        have hsub : t.length + 1 - 1000 = 0 := by omega
        rw [hmin, hsub]
        by_cases heq : t.length + 1 = 1000
        · rw [heq]
          simp
        · have hlt : t.length + 1 < 1000 := by omega
          rw [show (0 : Nat) / 1000 = 0 from rfl, show (0 : Nat) % 1000 = 0 from rfl,
            Nat.div_eq_of_lt hlt, Nat.mod_eq_of_lt hlt]
          simp
      · have hmin : min 1000 (t.length + 1) = 1000 := by omega
        rw [hmin]
        have hlen' : t.length + 1 = ((t.length + 1) - 1000) + 1000 := by omega
        conv_rhs => rw [hlen']
        rw [Nat.add_div_right _ (by omega), Nat.add_mod_right, List.replicate_succ,
          List.cons_append]

/-- C8: the producer partitions the candidate ids, in arrival order, into
batches of fixed size 1000: the concatenation of the batches is the
candidate list itself (hence no id duplicated or lost when the candidates
are distinct), there are exactly `ceil(len / 1000)` batches, the batch
sizes are `len / 1000` copies of 1000 followed by `len mod 1000` when
nonzero, and a 2500-id candidate list yields exactly 3 batches of sizes
1000, 1000, 500. -/
theorem batch_partitioning {α : Type} (ids ids2500 : List α)
    (h2500 : ids2500.length = 2500) (hnd : ids.Nodup) :
    ((makeBatches ids).flatten = ids)
  ∧ ((makeBatches ids).map List.length
      = List.replicate (ids.length / 1000) 1000
        ++ (if ids.length % 1000 = 0 then [] else [ids.length % 1000]))
  ∧ ((makeBatches ids).length = (ids.length + 1000 - 1) / 1000)
  ∧ ((makeBatches ids).flatten.Nodup)
  ∧ ((makeBatches ids2500).map List.length = [1000, 1000, 500]) := by
  have hflat : (makeBatches ids).flatten = ids :=
    makeBatchesAux_flatten ids.length ids (Nat.le_refl _)
  have hsizes : (makeBatches ids).map List.length
      = List.replicate (ids.length / 1000) 1000
        ++ (if ids.length % 1000 = 0 then [] else [ids.length % 1000]) :=
    makeBatchesAux_sizes ids.length ids (Nat.le_refl _)
  refine ⟨hflat, hsizes, ?_, by rw [hflat]; exact hnd, ?_⟩
  · have hlen : (makeBatches ids).length
        = ((makeBatches ids).map List.length).length := by simp
    rw [hlen, hsizes]
    by_cases hmod : ids.length % 1000 = 0
    · simp [hmod]
      omega
    · simp [hmod]
      omega
  · have h := makeBatchesAux_sizes ids2500.length ids2500 (Nat.le_refl _)
    rw [h2500] at h
    rw [show makeBatches ids2500 = makeBatchesAux ids2500.length ids2500 from rfl,
      h2500] at *
    rw [h]
    rfl

/-- Witness for C8 at a two-element distinct list and `List.range 2500`. -/
theorem batch_partitioning_witness :
    ((List.range 2500).length = 2500) ∧ ([5, 7] : List Nat).Nodup ∧
    (((makeBatches [5, 7]).flatten = [5, 7])
  ∧ ((makeBatches [5, 7]).map List.length
      = List.replicate (([5, 7] : List Nat).length / 1000) 1000
        ++ (if ([5, 7] : List Nat).length % 1000 = 0 then []
            else [([5, 7] : List Nat).length % 1000]))
  ∧ ((makeBatches [5, 7]).length = (([5, 7] : List Nat).length + 1000 - 1) / 1000)
  ∧ ((makeBatches [5, 7]).flatten.Nodup)
  ∧ ((makeBatches (List.range 2500)).map List.length = [1000, 1000, 500])) :=
  ⟨by simp, by decide,
    batch_partitioning [5, 7] (List.range 2500) (by simp) (by decide)⟩

theorem get?_some_lt (l : List α) : ∀ (i : Nat) (a : α), l.get? i = some a →
    i < l.length := by
  induction l with
  | nil => intro i a h; simp at h
  | cons x t ih =>
    intro i a h
    cases i with
    | zero => simp
    | succ i =>
      simp only [List.get?] at h
      have := ih i a h
      simp only [List.length_cons]
      omega

theorem get?_set_other (l : List α) : ∀ (i j : Nat) (b : α), i ≠ j →
    (l.set i b).get? j = l.get? j := by
  induction l with
  | nil => intro i j b _; rfl
  | cons x t ih =>
    intro i j b hij
    cases i with
    | zero =>
      cases j with
      | zero => exact absurd rfl hij
      | succ j => rfl
    | succ i =>
      cases j with
      | zero => rfl
      | succ j => exact ih i j b (by omega)

theorem set_get_self (l : List α) : ∀ (i : Nat) (a : α), l.get? i = some a →
    l.set i a = l := by
  induction l with
  | nil => intro i a h; simp at h
  | cons x t ih =>
    intro i a h
    cases i with
    | zero =>
      simp only [List.get?] at h
      cases h
      rfl
    | succ i =>
      simp only [List.get?] at h
      show x :: t.set i a = x :: t
      rw [ih i a h]

/-- Overwriting position `i` (which holds `a`) with `b` exchanges one copy
of `a` for one copy of `b` in the underlying multiset. -/
theorem ms_set (l : List α) : ∀ (i : Nat) (a b : α), l.get? i = some a →
    ((l.set i b : List α) : Multiset α) + {a} = (l : Multiset α) + {b} := by
  induction l with
  | nil => intro i a b h; simp at h
  | cons x t ih =>
    intro i a b h
    cases i with
    | zero =>
      simp only [List.get?] at h
      cases h
      show ((b :: t : List α) : Multiset α) + {x} = ((x :: t : List α) : Multiset α) + {b}
      rw [← Multiset.cons_coe, ← Multiset.cons_coe, ← Multiset.singleton_add,
        ← Multiset.singleton_add]
      abel
    | succ i =>
      simp only [List.get?] at h
      show ((x :: t.set i b : List α) : Multiset α) + {a}
        = ((x :: t : List α) : Multiset α) + {b}
      rw [← Multiset.cons_coe, ← Multiset.cons_coe, Multiset.cons_add,
        Multiset.cons_add, ih i a b h]

/-- A swap of two in-range positions permutes the list. -/
theorem listSwap_perm (l : List α) (i j : Nat) : List.Perm (listSwap l i j) l := by
  unfold listSwap
  cases hi : l.get? i with
  | none => exact List.Perm.refl l
  | some a =>
    cases hj : l.get? j with
    | none => exact List.Perm.refl l
    | some b =>
      show List.Perm ((l.set i b).set j a) l
      by_cases hij : i = j
      · subst hij
        obtain rfl : a = b := by rw [hi] at hj; injection hj
        rw [List.set_set, set_get_self l i a hi]
      · apply Multiset.coe_eq_coe.mp
        have h1 := ms_set l i a b hi
        have h2 := ms_set (l.set i b) j b a
          (by rw [get?_set_other l i j b hij]; exact hj)
        exact add_right_cancel (h2.trans h1)

/-- Every Fisher-Yates pass yields a permutation of its input. -/
theorem fyGo_perm (i : Nat) : ∀ (l : List α) (js : List Nat),
    List.Perm (fyGo l i js) l := by
  induction i with
  | zero => intro l js; exact List.Perm.refl l
  | succ i ih =>
    intro l js
    cases js with
    | nil => exact List.Perm.refl l
    | cons j js =>
      exact (ih (listSwap l (i + 1) (j % (i + 2))) js).trans
        (listSwap_perm l (i + 1) (j % (i + 2)))

/-- C9: `__init__` aliases the caller's credentials list and shuffles it in
place: afterwards the pool's list and the caller's list object are the
same list, a permutation of the input credentials (none added, lost or
duplicated), and the construction can genuinely reorder the caller's
list. -/
theorem init_shuffles_in_place {α : Type} (credentials : List α) (js : List Nat) :
    ((ycsInit credentials js).pool = (ycsInit credentials js).callerList)
  ∧ List.Perm ((ycsInit credentials js).pool) credentials
  ∧ (ycsInit [0, 1] [0]).callerList ≠ [0, 1] := by
  exact ⟨rfl, fyGo_perm (credentials.length - 1) credentials js, by decide⟩
